import Mathlib

/-!
Verification of the iCalendar feed component
(`custom_components/icalendar/__init__.py`).

The development shallowly embeds the request handler `iCalendarView.get`
and the setup function `async_setup`: Python strings become Lean
`String`/`List Char`, dictionaries with optional keys become structures of
`Option` fields, `None` becomes `none`, datetime instants used only for
arithmetic become integer seconds, and Python exceptions become an
`Except PyError` result.  Host collaborators (the state registry and the
`calendar.get_events` service) are parameters of the embedded handler.
-/

set_option autoImplicit false

/-! ## Python string helpers: `html.escape`, `str.replace`, `str.rstrip` -/

/-- The single-quote character, written by code point to keep the
source free of quote-literal noise. -/
def quoteChar : Char := Char.ofNat 39

/-- Embedding of Python `html.escape(s, quote=True)` at a single character.
`html.escape` performs five sequential `str.replace` calls (`&` first, then
`<`, `>`, `"`, `'`); since the replacement texts never contain a character
that a later replace rewrites, the sequential replaces coincide with this
per-character map. -/
def htmlEscapeChar (c : Char) : List Char :=
  if c = '&' then "&amp;".data
  else if c = '<' then "&lt;".data
  else if c = '>' then "&gt;".data
  else if c = '"' then "&quot;".data
  else if c = quoteChar then "&#x27;".data
  else [c]

/-- Character-list version of `html.escape`. -/
def htmlEscapeList : List Char → List Char
  | [] => []
  | c :: rest => htmlEscapeChar c ++ htmlEscapeList rest

/-- Embedding of Python `html.escape` on strings. -/
def htmlEscape (s : String) : String :=
  String.mk (htmlEscapeList s.data)

/-- Embedding of Python `s.replace('\n', '\n ')`: every newline gains a
following space (iCalendar continuation line). -/
def replaceNl : List Char → List Char
  | [] => []
  | c :: rest =>
    if c = '\n' then '\n' :: ' ' :: replaceNl rest else c :: replaceNl rest

/-- The whitespace characters removed by Python `str.rstrip()` (ASCII part). -/
def isPySpace (c : Char) : Bool :=
  c = ' ' || c = '\t' || c = '\n' || c = '\r' || c = Char.ofNat 11 || c = Char.ofNat 12

/-- Embedding of Python `str.rstrip()`: drop the maximal run of trailing
whitespace. -/
def pyRstrip : List Char → List Char
  | [] => []
  | c :: rest =>
    match pyRstrip rest with
    | [] => if isPySpace c then [] else [c]
    | r => c :: r

/-- The combined per-value text treatment of the serializer:
`escape(text).replace('\n', '\n ').rstrip()`. -/
def escFoldList (l : List Char) : List Char :=
  pyRstrip (replaceNl (htmlEscapeList l))

/-- String version of `escFoldList`. -/
def escFold (s : String) : String :=
  String.mk (escFoldList s.data)

/-- Text folding applied to an already-escaped value
(`summary.replace('\n', '\n ').rstrip()` in the source). -/
def foldText (s : String) : String :=
  String.mk (pyRstrip (replaceNl s.data))

/-! ## SHA-256 over byte lists (bytes are `Nat` below 256) -/

/-- Truncate to 32 bits. -/
def m32 (x : Nat) : Nat := x % 4294967296

/-- Rotate a 32-bit word right by `n`. -/
def rotr (n x : Nat) : Nat := m32 ((x >>> n) ||| (x <<< (32 - n)))

/-- The 64 SHA-256 round constants. -/
def k256 : List Nat :=
  [1116352408, 1899447441, 3049323471, 3921009573,
   961987163, 1508970993, 2453635748, 2870763221,
   3624381080, 310598401, 607225278, 1426881987,
   1925078388, 2162078206, 2614888103, 3248222580,
   3835390401, 4022224774, 264347078, 604807628,
   770255983, 1249150122, 1555081692, 1996064986,
   2554220882, 2821834349, 2952996808, 3210313671,
   3336571891, 3584528711, 113926993, 338241895,
   666307205, 773529912, 1294757372, 1396182291,
   1695183700, 1986661051, 2177026350, 2456956037,
   2730485921, 2820302411, 3259730800, 3345764771,
   3516065817, 3600352804, 4094571909, 275423344,
   430227734, 506948616, 659060556, 883997877,
   958139571, 1322822218, 1537002063, 1747873779,
   1955562222, 2024104815, 2227730452, 2361852424,
   2428436474, 2756734187, 3204031479, 3329325298]

/-- SHA-256 working state: eight 32-bit words. -/
structure H8 where
  a : Nat
  b : Nat
  c : Nat
  d : Nat
  e : Nat
  f : Nat
  g : Nat
  h : Nat
deriving Repr, DecidableEq

/-- Initial SHA-256 hash value. -/
def initH : H8 :=
  ⟨1779033703, 3144134277, 1013904242, 2773480762,
   1359893119, 2600822924, 528734635, 1541459225⟩

/-- One SHA-256 compression round with round constant `k` and schedule
word `w`. -/
def sha256Round (st : H8) (kw : Nat × Nat) : H8 :=
  let s1 := (rotr 6 st.e) ^^^ (rotr 11 st.e) ^^^ (rotr 25 st.e)
  let ch := (st.e &&& st.f) ^^^ ((st.e ^^^ 4294967295) &&& st.g)
  let t1 := m32 (st.h + s1 + ch + kw.1 + kw.2)
  let s0 := (rotr 2 st.a) ^^^ (rotr 13 st.a) ^^^ (rotr 22 st.a)
  let mj := (st.a &&& st.b) ^^^ (st.a &&& st.c) ^^^ (st.b &&& st.c)
  let t2 := m32 (s0 + mj)
  ⟨m32 (t1 + t2), st.a, st.b, st.c, m32 (st.d + t1), st.e, st.f, st.g⟩

/-- Extend the 16 block words (given most-recent-first) by `n` schedule
words; the result is still most-recent-first. -/
def extendW : Nat → List Nat → List Nat
  | 0, acc => acc
  | n + 1, acc =>
    let w2 := acc.getD 1 0
    let w7 := acc.getD 6 0
    let w15 := acc.getD 14 0
    let w16 := acc.getD 15 0
    let s0 := (rotr 7 w15) ^^^ (rotr 18 w15) ^^^ (w15 >>> 3)
    let s1 := (rotr 17 w2) ^^^ (rotr 19 w2) ^^^ (w2 >>> 10)
    extendW n (m32 (w16 + s0 + w7 + s1) :: acc)

/-- The 64-word message schedule of one block. -/
def scheduleOf (block : List Nat) : List Nat :=
  (extendW 48 block.reverse).reverse

/-- Compress one block (given as its 16 words) into the hash state. -/
def sha256Block (hv : H8) (block : List Nat) : H8 :=
  let st := (List.zip k256 (scheduleOf block)).foldl sha256Round hv
  ⟨m32 (hv.a + st.a), m32 (hv.b + st.b), m32 (hv.c + st.c), m32 (hv.d + st.d),
   m32 (hv.e + st.e), m32 (hv.f + st.f), m32 (hv.g + st.g), m32 (hv.h + st.h)⟩

/-- Big-endian bytes of a 64-bit quantity. -/
def be64 (n : Nat) : List Nat :=
  [m32 (n >>> 56) % 256, (n >>> 48) % 256, (n >>> 40) % 256, (n >>> 32) % 256,
   (n >>> 24) % 256, (n >>> 16) % 256, (n >>> 8) % 256, n % 256]

/-- SHA-256 padding: append `0x80`, zeros, and the 64-bit bit length, to a
multiple of 64 bytes. -/
def padMsg (msg : List Nat) : List Nat :=
  let L := msg.length
  let k := (119 - (L % 64)) % 64
  msg ++ 0x80 :: List.replicate k 0 ++ be64 (L * 8)

/-- Pack bytes into big-endian 32-bit words. -/
def toWords : List Nat → List Nat
  | b0 :: b1 :: b2 :: b3 :: rest =>
    ((b0 <<< 24) ||| (b1 <<< 16) ||| (b2 <<< 8) ||| b3) :: toWords rest
  | _ => []

/-- Split a word list into blocks of 16 words, spending one unit of fuel
per block. -/
def chunk16 : Nat → List Nat → List (List Nat)
  | 0, _ => []
  | _, [] => []
  | fuel + 1, l => l.take 16 :: chunk16 fuel (l.drop 16)

/-- The eight 32-bit result words of SHA-256 on a byte list. -/
def sha256Words (msg : List Nat) : H8 :=
  let ws := toWords (padMsg msg)
  (chunk16 ws.length ws).foldl sha256Block initH

/-- One hexadecimal digit. -/
def hexDigit (n : Nat) : Char :=
  if n < 10 then Char.ofNat (48 + n) else Char.ofNat (87 + n)

/-- Eight lowercase hex digits of a 32-bit word. -/
def hex32 (w : Nat) : List Char :=
  [hexDigit ((w >>> 28) % 16), hexDigit ((w >>> 24) % 16),
   hexDigit ((w >>> 20) % 16), hexDigit ((w >>> 16) % 16),
   hexDigit ((w >>> 12) % 16), hexDigit ((w >>> 8) % 16),
   hexDigit ((w >>> 4) % 16), hexDigit (w % 16)]

/-- UTF-8 bytes of one character. -/
def utf8Char (c : Char) : List Nat :=
  let n := c.toNat
  if n < 0x80 then [n]
  else if n < 0x800 then
    [0xC0 ||| (n >>> 6), 0x80 ||| (n &&& 0x3F)]
  else if n < 0x10000 then
    [0xE0 ||| (n >>> 12), 0x80 ||| ((n >>> 6) &&& 0x3F), 0x80 ||| (n &&& 0x3F)]
  else
    [0xF0 ||| (n >>> 18), 0x80 ||| ((n >>> 12) &&& 0x3F),
     0x80 ||| ((n >>> 6) &&& 0x3F), 0x80 ||| (n &&& 0x3F)]

/-- UTF-8 encoding of a string, as in Python `s.encode('utf-8')`. -/
def utf8Bytes : List Char → List Nat
  | [] => []
  | c :: rest => utf8Char c ++ utf8Bytes rest

/-- Embedding of `hashlib.sha256(s.encode('utf-8')).hexdigest()`. -/
def sha256hex (s : String) : String :=
  let h := sha256Words (utf8Bytes s.data)
  String.mk (hex32 h.a ++ hex32 h.b ++ hex32 h.c ++ hex32 h.d ++
             hex32 h.e ++ hex32 h.f ++ hex32 h.g ++ hex32 h.h)

/-! ## Datetime parsing and formatting

The source parses event boundaries with
`datetime.strptime(x, "%Y-%m-%dT%H:%M:%S%z")`, falling back to
`datetime.strptime(x, "%Y-%m-%d")`, and renders with
`strftime("%Y%m%dT%H%M%SZ")` / `strftime("%Y%m%d")`.  The parsers below
model the fixed-width instances of those formats (four-digit year,
two-digit month/day/hour/minute/second, offsets `±HH:MM`, `±HHMM`, `Z`)
with full calendar validation; `strftime` renders the stored wall-clock
components and, for an aware datetime, never converts the instant, so the
formatters below use the components only and ignore the stored offset. -/

/-- Numeric value of an ASCII digit. -/
def digitVal (c : Char) : Option Nat :=
  if 48 ≤ c.toNat ∧ c.toNat ≤ 57 then some (c.toNat - 48) else none

/-- Read exactly `n` ASCII digits into the accumulator. -/
def readDigits : Nat → Nat → List Char → Option (Nat × List Char)
  | 0, acc, l => some (acc, l)
  | n + 1, acc, c :: l =>
    match digitVal c with
    | some d => readDigits n (acc * 10 + d) l
    | none => none
  | _ + 1, _, [] => none

/-- Consume one expected literal character. -/
def expectChar (c : Char) : List Char → Option (List Char)
  | d :: l => if d = c then some l else none
  | [] => none

/-- Gregorian leap-year test, as in Python `datetime`. -/
def isLeap (y : Nat) : Bool :=
  (y % 4 == 0 && y % 100 != 0) || (y % 400 == 0)

/-- Number of days in a month, as validated by the `datetime` constructor. -/
def daysInMonth (y m : Nat) : Nat :=
  if m = 2 then (if isLeap y then 29 else 28)
  else if m = 4 ∨ m = 6 ∨ m = 9 ∨ m = 11 then 30
  else 31

/-- An aware Python `datetime` as built by
`strptime("...%z")`: wall-clock components plus a UTC offset in minutes. -/
structure PyDateTime where
  year : Nat
  month : Nat
  day : Nat
  hour : Nat
  minute : Nat
  second : Nat
  tzMinutes : Int
deriving Repr, DecidableEq

/-- A Python `date`-valued `datetime` as built by `strptime("%Y-%m-%d")`. -/
structure PyDate where
  year : Nat
  month : Nat
  day : Nat
deriving Repr, DecidableEq

/-- Parse the common `YYYY-MM-DD` portion with calendar validation. -/
def parseYmd (l : List Char) : Option (Nat × Nat × Nat × List Char) := do
  let (y, l) ← readDigits 4 0 l
  let l ← expectChar '-' l
  let (m, l) ← readDigits 2 0 l
  let l ← expectChar '-' l
  let (d, l) ← readDigits 2 0 l
  if 1 ≤ y ∧ 1 ≤ m ∧ m ≤ 12 ∧ 1 ≤ d ∧ d ≤ daysInMonth y m then
    some (y, m, d, l)
  else
    none

/-- Magnitude part of a signed `%z` offset. -/
def parseOffsetMag (sign : Int) (l : List Char) : Option (Int × List Char) := do
  let (hh, l) ← readDigits 2 0 l
  let l := match l with
    | ':' :: l2 => l2
    | _ => l
  let (mm, l) ← readDigits 2 0 l
  if hh ≤ 23 ∧ mm ≤ 59 then
    some (sign * (hh * 60 + mm), l)
  else
    none

/-- Parse a `%z` UTC offset: `Z`, `z`, or a sign followed by `HH:MM` or
`HHMM`; the result is the offset in minutes. -/
def parseOffset : List Char → Option (Int × List Char)
  | 'Z' :: l => some (0, l)
  | 'z' :: l => some (0, l)
  | '+' :: l => parseOffsetMag 1 l
  | '-' :: l => parseOffsetMag (-1) l
  | _ => none

/-- Embedding of `datetime.strptime(s, "%Y-%m-%dT%H:%M:%S%z")`; fails
(`None`) exactly where `strptime` raises `ValueError`. -/
def parseDatetimeZ (s : String) : Option PyDateTime := do
  let (y, m, d, l) ← parseYmd s.data
  let l ← expectChar 'T' l
  let (hh, l) ← readDigits 2 0 l
  let l ← expectChar ':' l
  let (mi, l) ← readDigits 2 0 l
  let l ← expectChar ':' l
  let (ss, l) ← readDigits 2 0 l
  let (off, l) ← parseOffset l
  if hh ≤ 23 ∧ mi ≤ 59 ∧ ss ≤ 59 ∧ l = [] then
    some ⟨y, m, d, hh, mi, ss, off⟩
  else
    none

/-- Embedding of `datetime.strptime(s, "%Y-%m-%d")`. -/
def parseDateOnly (s : String) : Option PyDate := do
  let (y, m, d, l) ← parseYmd s.data
  if l = [] then some ⟨y, m, d⟩ else none

/-- The ASCII digit character of `n % 10`. -/
def digitChar (n : Nat) : Char :=
  match n % 10 with
  | 0 => '0' | 1 => '1' | 2 => '2' | 3 => '3' | 4 => '4'
  | 5 => '5' | 6 => '6' | 7 => '7' | 8 => '8' | _ => '9'

/-- Decimal digits of `n`, most significant first, with explicit fuel. -/
def natDigitsAux : Nat → Nat → List Char
  | 0, _ => []
  | fuel + 1, n =>
    if n < 10 then [digitChar n] else natDigitsAux fuel (n / 10) ++ [digitChar n]

/-- Decimal rendering of a natural number. -/
def natDecimal (n : Nat) : String := String.mk (natDigitsAux (n + 1) n)

/-- Two-digit zero-padded decimal rendering. -/
def pad2 (n : Nat) : String :=
  if n < 10 then "0" ++ natDecimal n else natDecimal n

/-- Four-digit zero-padded decimal rendering. -/
def pad4 (n : Nat) : String :=
  if n < 10 then "000" ++ natDecimal n
  else if n < 100 then "00" ++ natDecimal n
  else if n < 1000 then "0" ++ natDecimal n
  else natDecimal n

/-- Embedding of `dt.strftime("%Y%m%dT%H%M%SZ")`: the wall-clock
components are rendered unchanged and a literal `Z` is appended; the
stored UTC offset does not participate. -/
def formatZ (dt : PyDateTime) : String :=
  pad4 dt.year ++ pad2 dt.month ++ pad2 dt.day ++ "T" ++
  pad2 dt.hour ++ pad2 dt.minute ++ pad2 dt.second ++ "Z"

/-- Embedding of `d.strftime("%Y%m%d")`. -/
def formatDate (d : PyDate) : String :=
  pad4 d.year ++ pad2 d.month ++ pad2 d.day

/-! ## Data model

Configuration dictionaries become structures of `Option` fields: a `none`
field models an absent key (for `colour` on a rule it models the absent
key; a present `colour` key always holds a string in the configurations
modelled here, and likewise `name`/`entity_id`/`secret`). -/

/-- One entry of the `calendars:` configuration list. -/
structure CalendarEntry where
  entity_id : Option String
  secret : Option String
  colour : Option String
deriving Repr, DecidableEq

/-- One entry of the `colours:` configuration list. -/
structure ColourRule where
  name : Option String
  colour : Option String
deriving Repr, DecidableEq

/-- One event record returned by the `calendar.get_events` service.
`start`/`end` keys are always present in service responses; `summary`,
`description` and `location` are `none` when absent or `None`. -/
structure EventRecord where
  start : String
  stop : String
  summary : Option String
  description : Option String
  location : Option String
deriving Repr, DecidableEq

/-- The per-entity value of a `get_events` service response
(`events[entity_id]`). -/
structure ServiceVal where
  events : List EventRecord
deriving Repr, DecidableEq

/-- A state-registry object, carrying the attribute the handler reads. -/
structure StateObj where
  friendly_name : String
deriving Repr, DecidableEq

/-- An `aiohttp` response: body text and HTTP status code
(`web.Response(...)` defaults to status 200). -/
structure Response where
  body : String
  status : Nat
deriving Repr, DecidableEq

/-- Python exceptions that the embedded handler can raise. -/
inductive PyError where
  /-- Raised by `for c in None`. -/
  | typeError
  /-- Raised by a missing dictionary key. -/
  | keyError
  /-- Raised by `strptime` when both date formats fail. -/
  | valueError
deriving Repr, DecidableEq

/-- Domain configuration `config[DOMAIN]` as a dictionary with the two
keys the setup loop inspects. -/
structure DomainConfig where
  colours : Option (List ColourRule)
  calendars : Option (List CalendarEntry)
deriving Repr, DecidableEq

/-- The state an `iCalendarView` is registered with. -/
structure RegisteredView where
  calendars : List CalendarEntry
  colours : Option (List ColourRule)
deriving Repr, DecidableEq

/-- Embedding of `async_setup`: scan `config[DOMAIN]` for the `colours`
and `calendars` keys; register the view (and succeed) only when
`calendars` was found. -/
def async_setup (cfg : DomainConfig) : Option RegisteredView :=
  match cfg.calendars with
  | some cals => some ⟨cals, cfg.colours⟩
  | none => none

/-! ## The request handler -/

/-- Embedding of the configuration scan in `iCalendarView.get`: find the
first calendar entry that has an `entity_id` key equal to the requested
identifier together with a `secret` key, returning its secret and
optional colour (the loop `break`s at the first match). -/
def findCalendar : List CalendarEntry → String → Option (String × Option String)
  | [], _ => none
  | cal :: rest, eid =>
    match cal.entity_id, cal.secret with
    | some e, some s =>
      if e = eid then some (s, cal.colour) else findCalendar rest eid
    | _, _ => findCalendar rest eid

/-- Embedding of Python `s.startswith(p)`. -/
def strStartsWith (s p : String) : Bool :=
  p.data.isPrefixOf s.data

/-- Embedding of `timedelta(weeks=w)` in seconds. -/
def timedeltaWeeks (w : Nat) : Int := (w : Int) * 7 * 86400

/-- Embedding of a Python `f"{x}"` on an optional string: `None` prints
as the sentinel text `None`. -/
def pyShow : Option String → String
  | some s => s
  | none => "None"

/-- Embedding of the `try/except` around the four `strptime` calls: parse
both boundaries with the datetime-with-offset format; on any failure
re-parse both with the date-only format; if that also fails the
`ValueError` propagates.  Returns the rendered `(start, end, dtstamp)`
strings. -/
def parseTimes (st en : String) : Except PyError (String × String × String) :=
  match parseDatetimeZ st, parseDatetimeZ en with
  | some d1, some d2 => .ok (formatZ d1, formatZ d2, formatZ d1)
  | _, _ =>
    match parseDateOnly st, parseDateOnly en with
    | some d1, some d2 => .ok (formatDate d1, formatDate d2, formatDate d1 ++ "T000000")
    | _, _ => .error .valueError

/-- The string hashed into the UID:
`f"{entity_id}-{start}-{end}-{summary}"` with the already-escaped
identifier and summary. -/
def uidInput (eidEsc startS endS : String) (summaryEsc : Option String) : String :=
  eidEsc ++ "-" ++ startS ++ "-" ++ endS ++ "-" ++ pyShow summaryEsc

/-- The escaped summary of an event (`escape(e['summary'])` when present
and non-`None`, else `None`). -/
def eventSummaryEsc (e : EventRecord) : Option String :=
  e.summary.map htmlEscape

/-- The UID a rendering of `e` emits, when the date parse succeeds. -/
def eventUidOf (eidEsc : String) (e : EventRecord) : Except PyError String :=
  (parseTimes e.start e.stop).map fun t =>
    sha256hex (uidInput eidEsc t.1 t.2.1 (eventSummaryEsc e))

/-- Embedding of the colour loop body over a concrete rule list:
`for c in colours: if "name" in c and c["name"] == summary:
response += f"COLOR:{c['colour']}\n"`; a matching rule without a
`colour` key raises `KeyError`. -/
def colourLinesGo : List ColourRule → Option String → Except PyError String
  | [], _ => .ok ""
  | c :: rest, summary =>
    match c.name with
    | some n =>
      if (match summary with | some s => n == s | none => false) then
        match c.colour with
        | some col => (colourLinesGo rest summary).map
            (fun r => "COLOR:" ++ col ++ "\n" ++ r)
        | none => .error .keyError
      else colourLinesGo rest summary
    | none => colourLinesGo rest summary

/-- Embedding of `for c in self.colours` where `self.colours` may be
`None`: iterating `None` raises `TypeError`. -/
def colourLines : Option (List ColourRule) → Option String → Except PyError String
  | none, _ => .error .typeError
  | some cs, summary => colourLinesGo cs summary

/-- Render one `VEVENT` block exactly as the loop body of
`iCalendarView.get` appends it. -/
def renderEvent (eidEsc : String) (colours : Option (List ColourRule))
    (e : EventRecord) : Except PyError String :=
  match parseTimes e.start e.stop with
  | .error er => .error er
  | .ok (startS, endS, dtstamp) =>
    let summary := eventSummaryEsc e
    let uid := sha256hex (uidInput eidEsc startS endS summary)
    let core :=
      "BEGIN:VEVENT\n" ++
      "UID:" ++ uid ++ "\n" ++
      "DTSTAMP:" ++ dtstamp ++ "\n" ++
      "DTSTART:" ++ startS ++ "\n" ++
      "DTEND:" ++ endS ++ "\n" ++
      (match summary with
       | some s0 => "SUMMARY:" ++ foldText s0 ++ "\n"
       | none => "") ++
      (match e.description with
       | some d0 => "DESCRIPTION:" ++ foldText (htmlEscape d0) ++ "\n"
       | none => "") ++
      (match e.location with
       | some l0 => "LOCATION:" ++ foldText (htmlEscape l0) ++ "\n"
       | none => "")
    match colourLines colours summary with
    | .error er => .error er
    | .ok cls => .ok (core ++ cls ++ "END:VEVENT\n")

/-- Render all event blocks in order. -/
def renderEvents (eidEsc : String) (colours : Option (List ColourRule)) :
    List EventRecord → Except PyError String
  | [] => .ok ""
  | e :: rest =>
    match renderEvent eidEsc colours e with
    | .error er => .error er
    | .ok blk =>
      match renderEvents eidEsc colours rest with
      | .error er => .error er
      | .ok r => .ok (blk ++ r)

/-- The fixed `VCALENDAR` header, including the `ORGANIZER`/`NAME` lines
built from the friendly name and the optional calendar-level colour. -/
def calendarHeader (entity_id friendly : String) (calColour : Option String) : String :=
  "BEGIN:VCALENDAR\n" ++
  "VERSION:2.0\n" ++
  "PRODID:-//Home Assistant//iCal Subscription 1.0//EN\n" ++
  "CALSCALE:GREGORIAN\n" ++
  "METHOD:PUBLISH\n" ++
  "ORGANIZER;CN=\"" ++ htmlEscape friendly ++ "\":MAILTO:" ++
    entity_id ++ "@homeassistant.local\n" ++
  "NAME:" ++ htmlEscape friendly ++ "\n" ++
  (match calColour with
   | some c => "COLOR:" ++ c ++ "\n"
   | none => "")

/-- First match in an association-list service response
(`entity_id in events` / `events[entity_id]`). -/
def lookupEntry : List (String × ServiceVal) → String → Option ServiceVal
  | [], _ => none
  | (k, v) :: rest, eid => if k = eid then some v else lookupEntry rest eid

/-- The continuation of `iCalendarView.get` after the four authorization
checks have passed: state lookup, fixed-window event fetch, and feed
serialization.  `stateGet` models `hass.states.get`; `getEvents` models
the `calendar.get_events` service call (instants as integer seconds). -/
def handleAuthorized (calendar_colour : Option String)
    (colours : Option (List ColourRule))
    (stateGet : String → Option StateObj)
    (getEvents : String → Int → Int → Option (List (String × ServiceVal)))
    (now : Int) (entity_id : String) : Except PyError Response :=
  match stateGet entity_id with
  | none => .ok ⟨"404: Not Found", 404⟩
  | some st =>
    match getEvents entity_id (now - timedeltaWeeks 4) (now + timedeltaWeeks 52) with
    | none => .ok ⟨"404: Not Found", 404⟩
    | some m =>
      match lookupEntry m entity_id with
      | none => .ok ⟨"404: Not Found", 404⟩
      | some sval =>
        let header := calendarHeader entity_id st.friendly_name calendar_colour
        match renderEvents (htmlEscape entity_id) colours sval.events with
        | .error er => .error er
        | .ok evs => .ok ⟨header ++ evs ++ "END:VCALENDAR", 200⟩

/-- Embedding of `iCalendarView.get`.  `query_s` is
`request.query.get("s")`; the result is the HTTP response, or the Python
exception that escaped the handler. -/
def iCalendarView_get (calendars : List CalendarEntry)
    (colours : Option (List ColourRule))
    (stateGet : String → Option StateObj)
    (getEvents : String → Int → Int → Option (List (String × ServiceVal)))
    (now : Int) (query_s : Option String) (entity_id : String) :
    Except PyError Response :=
  match query_s with
  | none => .ok ⟨"403: Forbidden", 403⟩
  | some sParam =>
    match findCalendar calendars entity_id with
    | none => .ok ⟨"403: Forbidden", 403⟩
    | some (secret, calendar_colour) =>
      if sParam ≠ secret then .ok ⟨"401: Unauthorized", 401⟩
      else if ¬ (strStartsWith entity_id "calendar." = true) then
        .ok ⟨"403: Forbidden", 403⟩
      else
        handleAuthorized calendar_colour colours stateGet getEvents now entity_id

/-! ## Spec-side definitions

These two definitions follow the wording of the specification (not the
source) and exist only to be compared with the behaviour of the embedded
code. -/

/-- Days since 1970-01-01 of a proleptic Gregorian civil date
(standard era-based conversion). -/
def daysFromCivil (y m d : Int) : Int :=
  let y2 := if m ≤ 2 then y - 1 else y
  let era := Int.fdiv y2 400
  let yoe := y2 - era * 400
  let mp := Int.emod (m + 9) 12
  let doy := Int.fdiv (153 * mp + 2) 5 + d - 1
  let doe := yoe * 365 + Int.fdiv yoe 4 - Int.fdiv yoe 100 + doy
  era * 146097 + doe - 719468

/-- Civil date of a count of days since 1970-01-01 (inverse of
`daysFromCivil`). -/
def civilFromDays (z0 : Int) : Int × Int × Int :=
  let z := z0 + 719468
  let era := Int.fdiv z 146097
  let doe := z - era * 146097
  let yoe := Int.fdiv (doe - Int.fdiv doe 1460 + Int.fdiv doe 36524 - Int.fdiv doe 146096) 365
  let y := yoe + era * 400
  let doy := doe - (365 * yoe + Int.fdiv yoe 4 - Int.fdiv yoe 100)
  let mp := Int.fdiv (5 * doy + 2) 153
  let d := doy - Int.fdiv (153 * mp + 2) 5 + 1
  let m := mp + (if mp < 10 then 3 else -9)
  (if m ≤ 2 then y + 1 else y, m, d)

/-- Modelled from the spec: "the instant is normalized to UTC before
formatting".  Convert an aware datetime to the equivalent UTC wall clock
by subtracting its offset, carrying across day/month/year boundaries. -/
def specNormalizeToUTC (dt : PyDateTime) : PyDateTime :=
  let total := daysFromCivil (dt.year : Int) (dt.month : Int) (dt.day : Int) * 86400 +
    ((dt.hour : Int) * 3600 + (dt.minute : Int) * 60 + (dt.second : Int)) -
    dt.tzMinutes * 60
  let days := Int.fdiv total 86400
  let rem := total - days * 86400
  let c := civilFromDays days
  ⟨c.1.toNat, c.2.1.toNat, c.2.2.toNat,
   (Int.fdiv rem 3600).toNat, (Int.fdiv (Int.emod rem 3600) 60).toNat,
   (Int.emod rem 60).toNat, 0⟩

/-- Modelled from the spec: an "unescaped" reserved character in
iCalendar text is one not preceded by a backslash.  `hasUnescaped c l`
holds when `c` occurs in `l` at the start or after a non-backslash
character. -/
def hasUnescaped (c : Char) : List Char → Bool
  | [] => false
  | [d] => d = c
  | d :: e :: rest =>
    if e = c ∧ d ≠ '\\' then true else hasUnescaped c (e :: rest)

/-- Substring occurrence on character lists. -/
def containsSub (pat l : List Char) : Bool :=
  l.tails.any fun t => pat.isPrefixOf t

/-- Substring occurrence on strings. -/
def strContains (s pat : String) : Bool :=
  containsSub pat.data s.data

/-- Holds when every newline in the list is immediately followed by a
space, i.e. the text has no bare newline inside a property value. -/
def nlOk : List Char → Bool
  | [] => true
  | c :: rest =>
    if c = '\n' then
      match rest with
      | [] => false
      | d :: _ => d == ' ' && nlOk rest
    else nlOk rest

/-- Whether a colour rule has a `name` key equal to the given (escaped)
summary, as tested by the colour loop. -/
def matchesRule (c : ColourRule) (summary : Option String) : Bool :=
  match c.name, summary with
  | some n, some s => n == s
  | _, _ => false

/-- Concatenation of a list of strings, in order. -/
def strConcat : List String → String
  | [] => ""
  | s :: rest => s ++ strConcat rest

/-- Whether a request passes all four authorization checks of
`iCalendarView.get`. -/
def authPasses (calendars : List CalendarEntry) (query_s : Option String)
    (entity_id : String) : Bool :=
  match query_s, findCalendar calendars entity_id with
  | some s, some (sec, _) => s == sec && strStartsWith entity_id "calendar."
  | _, _ => false

/-! ## Theorems about the authorization gate -/

/-- C1: the authorization checks run in this exact order with these
outcomes: a missing `s` query parameter yields 403 Forbidden; otherwise a
missing configuration entry (no entry with matching `entity_id` and a
`secret`) yields 403 Forbidden; otherwise a supplied secret differing
from the configured one yields 401 Unauthorized; otherwise an identifier
not starting with `calendar.` yields 403 Forbidden; and a request passing
all four checks proceeds to the post-authorization handler carrying the
matched entry's optional colour. -/
theorem claim1_auth_order
    (calendars : List CalendarEntry) (colours : Option (List ColourRule))
    (stateGet : String → Option StateObj)
    (getEvents : String → Int → Int → Option (List (String × ServiceVal)))
    (now : Int) (entity_id : String) :
    (iCalendarView_get calendars colours stateGet getEvents now none entity_id =
        .ok ⟨"403: Forbidden", 403⟩) ∧
    (∀ s, findCalendar calendars entity_id = none →
        iCalendarView_get calendars colours stateGet getEvents now (some s) entity_id =
          .ok ⟨"403: Forbidden", 403⟩) ∧
    (∀ s sec col, findCalendar calendars entity_id = some (sec, col) → s ≠ sec →
        iCalendarView_get calendars colours stateGet getEvents now (some s) entity_id =
          .ok ⟨"401: Unauthorized", 401⟩) ∧
    (∀ s sec col, findCalendar calendars entity_id = some (sec, col) → s = sec →
        strStartsWith entity_id "calendar." = false →
        iCalendarView_get calendars colours stateGet getEvents now (some s) entity_id =
          .ok ⟨"403: Forbidden", 403⟩) ∧
    (∀ s sec col, findCalendar calendars entity_id = some (sec, col) → s = sec →
        strStartsWith entity_id "calendar." = true →
        iCalendarView_get calendars colours stateGet getEvents now (some s) entity_id =
          handleAuthorized col colours stateGet getEvents now entity_id) := by
  refine ⟨rfl, ?_, ?_, ?_, ?_⟩ <;> intros <;> simp_all [iCalendarView_get]

/-- C1 witness: each of the five branches exercised at a concrete
request. -/
theorem claim1_auth_order_witness :
    (iCalendarView_get [⟨some "calendar.family", some "abc123", some "blue"⟩]
        none (fun _ => none) (fun _ _ _ => none) 0 none "calendar.family" =
        .ok ⟨"403: Forbidden", 403⟩) ∧
    (iCalendarView_get [] none (fun _ => none) (fun _ _ _ => none) 0
        (some "abc123") "calendar.family" = .ok ⟨"403: Forbidden", 403⟩) ∧
    (iCalendarView_get [⟨some "calendar.family", some "abc123", none⟩]
        none (fun _ => none) (fun _ _ _ => none) 0 (some "wrong") "calendar.family" =
        .ok ⟨"401: Unauthorized", 401⟩) ∧
    (iCalendarView_get [⟨some "light.kitchen", some "abc123", none⟩]
        none (fun _ => none) (fun _ _ _ => none) 0 (some "abc123") "light.kitchen" =
        .ok ⟨"403: Forbidden", 403⟩) ∧
    (iCalendarView_get [⟨some "calendar.family", some "abc123", some "blue"⟩]
        none (fun _ => none) (fun _ _ _ => none) 0 (some "abc123") "calendar.family" =
        handleAuthorized (some "blue") none (fun _ => none) (fun _ _ _ => none) 0
          "calendar.family") := by
  refine ⟨(claim1_auth_order _ _ _ _ _ _).1,
    (claim1_auth_order _ _ _ _ _ _).2.1 "abc123" (by decide),
    (claim1_auth_order _ _ _ _ _ _).2.2.1 "wrong" "abc123" none (by decide) (by decide),
    (claim1_auth_order _ _ _ _ _ _).2.2.2.1 "abc123" "abc123" none (by decide) rfl
      (by decide),
    (claim1_auth_order _ _ _ _ _ _).2.2.2.2 "abc123" "abc123" (some "blue") (by decide)
      rfl (by decide)⟩

/-- C5: a request failing any authorization check is answered with a 403
or 401 response whose body contains no `BEGIN:VEVENT`, and the response
does not depend on the state registry, the event service, or the clock
(so the event service is never consulted). -/
theorem claim5_no_vevent_on_auth_failure
    (calendars : List CalendarEntry) (colours : Option (List ColourRule))
    (stateGet stateGet' : String → Option StateObj)
    (getEvents getEvents' : String → Int → Int → Option (List (String × ServiceVal)))
    (now now' : Int) (query_s : Option String) (entity_id : String)
    (hfail : authPasses calendars query_s entity_id = false) :
    ∃ r, iCalendarView_get calendars colours stateGet getEvents now query_s entity_id =
        .ok r ∧
      (r.status = 403 ∨ r.status = 401) ∧
      strContains r.body "BEGIN:VEVENT" = false ∧
      iCalendarView_get calendars colours stateGet' getEvents' now' query_s entity_id =
        iCalendarView_get calendars colours stateGet getEvents now query_s entity_id := by
  match hq : query_s with
  | none => exact ⟨⟨"403: Forbidden", 403⟩, rfl, Or.inl rfl, by decide, rfl⟩
  | some s =>
    match hf : findCalendar calendars entity_id with
    | none =>
      refine ⟨⟨"403: Forbidden", 403⟩, ?_, Or.inl rfl, by decide, ?_⟩ <;>
        simp [iCalendarView_get, hf]
    | some (sec, col) =>
      by_cases hne : s = sec
      · subst hne
        have hpre : strStartsWith entity_id "calendar." = false := by
          simpa [authPasses, hf] using hfail
        refine ⟨⟨"403: Forbidden", 403⟩, ?_, Or.inl rfl, by decide, ?_⟩ <;>
          simp [iCalendarView_get, hf, hpre]
      · refine ⟨⟨"401: Unauthorized", 401⟩, ?_, Or.inr rfl, by decide, ?_⟩ <;>
          simp [iCalendarView_get, hf, hne]

/-- C5 witness: a request with the wrong secret, under collaborators that
would happily return events. -/
theorem claim5_no_vevent_on_auth_failure_witness :
    ∃ r, iCalendarView_get [⟨some "calendar.family", some "abc123", none⟩]
        (some []) (fun _ => some ⟨"Family"⟩)
        (fun _ _ _ => some [("calendar.family", ⟨[]⟩)]) 1700000000
        (some "wrong") "calendar.family" = .ok r ∧
      (r.status = 403 ∨ r.status = 401) ∧
      strContains r.body "BEGIN:VEVENT" = false ∧
      iCalendarView_get [⟨some "calendar.family", some "abc123", none⟩]
        (some []) (fun _ => none) (fun _ _ _ => none) 0
        (some "wrong") "calendar.family" =
      iCalendarView_get [⟨some "calendar.family", some "abc123", none⟩]
        (some []) (fun _ => some ⟨"Family"⟩)
        (fun _ _ _ => some [("calendar.family", ⟨[]⟩)]) 1700000000
        (some "wrong") "calendar.family" :=
  claim5_no_vevent_on_auth_failure _ _ _ _ _ _ _ _ _ _ (by decide)

/-- C9: for every authorized request the query window handed to the
event service is exactly `now - 4 weeks` to `now + 52 weeks`
(2419200 and 31449600 seconds): the post-authorization handler's result
depends on the event service only through its value at precisely those
bounds, whatever the configuration. -/
theorem claim9_fetch_window (col : Option String)
    (colours : Option (List ColourRule))
    (stateGet : String → Option StateObj)
    (g g' : String → Int → Int → Option (List (String × ServiceVal)))
    (now : Int) (entity_id : String)
    (hagree : g entity_id (now - 4 * 7 * 86400) (now + 52 * 7 * 86400) =
              g' entity_id (now - 4 * 7 * 86400) (now + 52 * 7 * 86400)) :
    timedeltaWeeks 4 = 4 * 7 * 86400 ∧
    timedeltaWeeks 52 = 52 * 7 * 86400 ∧
    handleAuthorized col colours stateGet g now entity_id =
      handleAuthorized col colours stateGet g' now entity_id := by
  refine ⟨by decide, by decide, ?_⟩
  have h4 : timedeltaWeeks 4 = 4 * 7 * 86400 := by decide
  have h52 : timedeltaWeeks 52 = 52 * 7 * 86400 := by decide
  simp only [handleAuthorized, h4, h52, hagree]

/-- C9 witness: two services agreeing on the fixed window (one of them
differing elsewhere) produce the same response. -/
theorem claim9_fetch_window_witness :
    timedeltaWeeks 4 = 4 * 7 * 86400 ∧
    timedeltaWeeks 52 = 52 * 7 * 86400 ∧
    handleAuthorized none (some []) (fun _ => some ⟨"Family"⟩)
      (fun _ _ _ => none) 1700000000 "calendar.family" =
    handleAuthorized none (some []) (fun _ => some ⟨"Family"⟩)
      (fun _ s _ => if s = 1700000000 - 4 * 7 * 86400 then none else some [])
      1700000000 "calendar.family" :=
  claim9_fetch_window _ _ _ _ _ _ _ (by decide)

/-! ## Theorems about the fetch phase -/

/-- C6 counterexample: a valid, authorized calendar whose event source
returns an entry with an empty event list is answered with a 200
header-only document, not with 404 Not Found. -/
theorem claim6_counterexample :
    iCalendarView_get [⟨some "calendar.family", some "abc123", none⟩] (some [])
      (fun _ => some ⟨"Family"⟩)
      (fun _ _ _ => some [("calendar.family", ⟨[]⟩)])
      1700000000 (some "abc123") "calendar.family" =
    .ok ⟨"BEGIN:VCALENDAR\nVERSION:2.0\nPRODID:-//Home Assistant//iCal Subscription 1.0//EN\nCALSCALE:GREGORIAN\nMETHOD:PUBLISH\nORGANIZER;CN=\"Family\":MAILTO:calendar.family@homeassistant.local\nNAME:Family\nEND:VCALENDAR", 200⟩ := by
  rfl

/-- C6 amended: the 404 Not Found outcome occurs when the event service
returns no response at all or a response lacking an entry for the
identifier; a present entry with an empty event list instead produces a
200 response whose body is the bare header with no VEVENT block
rendered. -/
theorem claim6_empty_events_policy (col : Option String)
    (colours : Option (List ColourRule))
    (stateGet : String → Option StateObj)
    (getEvents : String → Int → Int → Option (List (String × ServiceVal)))
    (now : Int) (entity_id : String) (st : StateObj)
    (hstate : stateGet entity_id = some st) :
    (getEvents entity_id (now - timedeltaWeeks 4) (now + timedeltaWeeks 52) = none →
        handleAuthorized col colours stateGet getEvents now entity_id =
          .ok ⟨"404: Not Found", 404⟩) ∧
    (∀ m, getEvents entity_id (now - timedeltaWeeks 4) (now + timedeltaWeeks 52) =
          some m →
        lookupEntry m entity_id = none →
        handleAuthorized col colours stateGet getEvents now entity_id =
          .ok ⟨"404: Not Found", 404⟩) ∧
    (∀ m, getEvents entity_id (now - timedeltaWeeks 4) (now + timedeltaWeeks 52) =
          some m →
        lookupEntry m entity_id = some ⟨[]⟩ →
        handleAuthorized col colours stateGet getEvents now entity_id =
          .ok ⟨calendarHeader entity_id st.friendly_name col ++ "END:VCALENDAR", 200⟩) := by
  refine ⟨fun h => ?_, fun m hm hl => ?_, fun m hm hl => ?_⟩ <;>
    simp [handleAuthorized, hstate, *, renderEvents]

/-- C6 amended witness: the three fetch outcomes at concrete inputs. -/
theorem claim6_empty_events_policy_witness :
    (handleAuthorized none (some []) (fun _ => some ⟨"Family"⟩)
        (fun _ _ _ => none) 1700000000 "calendar.family" =
        .ok ⟨"404: Not Found", 404⟩) ∧
    (handleAuthorized none (some []) (fun _ => some ⟨"Family"⟩)
        (fun _ _ _ => some [("calendar.other", ⟨[]⟩)]) 1700000000 "calendar.family" =
        .ok ⟨"404: Not Found", 404⟩) ∧
    (handleAuthorized none (some []) (fun _ => some ⟨"Family"⟩)
        (fun _ _ _ => some [("calendar.family", ⟨[]⟩)]) 1700000000 "calendar.family" =
        .ok ⟨calendarHeader "calendar.family" "Family" none ++ "END:VCALENDAR", 200⟩) := by
  refine ⟨(claim6_empty_events_policy none (some []) _ _ 1700000000 "calendar.family"
      ⟨"Family"⟩ rfl).1 rfl,
    (claim6_empty_events_policy none (some []) _ _ 1700000000 "calendar.family"
      ⟨"Family"⟩ rfl).2.1 [("calendar.other", ⟨[]⟩)] rfl (by decide),
    (claim6_empty_events_policy none (some []) _ _ 1700000000 "calendar.family"
      ⟨"Family"⟩ rfl).2.2 [("calendar.family", ⟨[]⟩)] rfl (by decide)⟩

/-- C10: when the component is set up without a `colours` key the view is
registered with `colours = None`; an authorized request whose fetch
yields at least one event then escapes with an exception rather than
returning a response — a `TypeError` from iterating `None` in the COLOR
loop whenever the first event's dates parse. -/
theorem claim10_colours_none_crash (cfg : DomainConfig) (v : RegisteredView)
    (hsetup : async_setup cfg = some v) (hnocolours : cfg.colours = none)
    (stateGet : String → Option StateObj)
    (getEvents : String → Int → Int → Option (List (String × ServiceVal)))
    (now : Int) (query_s : Option String) (entity_id : String)
    (hauth : authPasses v.calendars query_s entity_id = true)
    (st : StateObj) (hstate : stateGet entity_id = some st)
    (m : List (String × ServiceVal))
    (hm : getEvents entity_id (now - timedeltaWeeks 4) (now + timedeltaWeeks 52) =
      some m)
    (sval : ServiceVal) (hl : lookupEntry m entity_id = some sval)
    (e : EventRecord) (rest : List EventRecord) (hev : sval.events = e :: rest) :
    (∃ er, iCalendarView_get v.calendars v.colours stateGet getEvents now query_s
        entity_id = .error er) ∧
    (∀ t, parseTimes e.start e.stop = .ok t →
        iCalendarView_get v.calendars v.colours stateGet getEvents now query_s
          entity_id = .error .typeError) := by
  have hvcol : v.colours = none := by
    cases hc : cfg.calendars with
    | none => simp [async_setup, hc] at hsetup
    | some cals =>
      have : v = ⟨cals, cfg.colours⟩ := by
        simpa [async_setup, hc] using hsetup.symm
      simp [this, hnocolours]
  cases query_s with
  | none => simp [authPasses] at hauth
  | some s =>
  cases hf : findCalendar v.calendars entity_id with
  | none => rw [authPasses.eq_def] at hauth; rw [hf] at hauth; simp at hauth
  | some p =>
  obtain ⟨sec, col⟩ := p
  rw [authPasses.eq_def] at hauth; rw [hf] at hauth
  simp only [Bool.and_eq_true, beq_iff_eq] at hauth
  obtain ⟨hsec, hpre⟩ := hauth
  subst hsec
  have hget : iCalendarView_get v.calendars v.colours stateGet getEvents now
      (some s) entity_id =
      handleAuthorized col v.colours stateGet getEvents now entity_id := by
    simp [iCalendarView_get, hf, hpre]
  rw [hget, hvcol]
  have hrun : handleAuthorized col none stateGet getEvents now entity_id =
      match renderEvents (htmlEscape entity_id) none sval.events with
      | .error er => .error er
      | .ok evs => .ok ⟨calendarHeader entity_id st.friendly_name col ++ evs ++
          "END:VCALENDAR", 200⟩ := by
    simp [handleAuthorized, hstate, hm, hl]
  constructor
  · rw [hrun, hev]
    cases ht : parseTimes e.start e.stop with
    | error er => exact ⟨er, by simp [renderEvents, renderEvent, ht]⟩
    | ok t => exact ⟨.typeError, by simp [renderEvents, renderEvent, ht, colourLines]⟩
  · intro t ht
    rw [hrun, hev]
    simp [renderEvents, renderEvent, ht, colourLines]

/-- C10 witness: the Dentist scenario with the `colours` key absent
raises `TypeError`. -/
theorem claim10_colours_none_crash_witness :
    (∃ er, iCalendarView_get [⟨some "calendar.family", some "abc123", none⟩] none
        (fun _ => some ⟨"Family"⟩)
        (fun _ _ _ => some [("calendar.family",
          ⟨[⟨"2024-03-01T10:00:00+00:00", "2024-03-01T11:00:00+00:00",
             some "Dentist", none, none⟩]⟩)])
        1700000000 (some "abc123") "calendar.family" = .error er) ∧
    (∀ t, parseTimes "2024-03-01T10:00:00+00:00" "2024-03-01T11:00:00+00:00" =
        .ok t →
      iCalendarView_get [⟨some "calendar.family", some "abc123", none⟩] none
        (fun _ => some ⟨"Family"⟩)
        (fun _ _ _ => some [("calendar.family",
          ⟨[⟨"2024-03-01T10:00:00+00:00", "2024-03-01T11:00:00+00:00",
             some "Dentist", none, none⟩]⟩)])
        1700000000 (some "abc123") "calendar.family" = .error .typeError) :=
  claim10_colours_none_crash ⟨none, some [⟨some "calendar.family", some "abc123", none⟩]⟩
    ⟨[⟨some "calendar.family", some "abc123", none⟩], none⟩ rfl rfl _ _ 1700000000
    (some "abc123") "calendar.family" (by decide) ⟨"Family"⟩ rfl _ rfl
    ⟨[⟨"2024-03-01T10:00:00+00:00", "2024-03-01T11:00:00+00:00", some "Dentist",
       none, none⟩]⟩ (by decide) _ _ rfl

/-! ## Theorems about datetime serialization -/

/-- C3 counterexample: for the input `2024-03-01T10:00:00+05:00` (a
non-zero UTC offset) the code emits `20240301T100000Z` — the input's
wall clock with a literal `Z` appended — while normalizing the instant to
UTC before formatting, as the claim states, would yield
`20240301T050000Z`. -/
theorem claim3_counterexample :
    (parseDatetimeZ "2024-03-01T10:00:00+05:00").map formatZ =
      some "20240301T100000Z" ∧
    (parseDatetimeZ "2024-03-01T10:00:00+05:00").map
        (fun d => formatZ (specNormalizeToUTC d)) = some "20240301T050000Z" ∧
    ("20240301T100000Z" : String) ≠ "20240301T050000Z" := by
  refine ⟨by decide, by decide, by decide⟩

/-- C3 amended: for every event whose start/end parse in the
datetime-with-offset format, DTSTART/DTEND/DTSTAMP are emitted as
`Z`-suffixed timestamps whose digits are the input's wall-clock
components with the parsed UTC offset ignored (no normalization of the
instant to UTC takes place), and DTSTAMP equals the emitted DTSTART. -/
theorem claim3_z_suffix_without_conversion (st en : String) (d1 d2 : PyDateTime)
    (h1 : parseDatetimeZ st = some d1) (h2 : parseDatetimeZ en = some d2) :
    parseTimes st en = .ok (formatZ d1, formatZ d2, formatZ d1) ∧
    (∀ z : Int,
      formatZ ⟨d1.year, d1.month, d1.day, d1.hour, d1.minute, d1.second, z⟩ =
        formatZ d1) ∧
    (∃ p : String, formatZ d1 = p ++ "Z") := by
  refine ⟨?_, fun z => rfl, ⟨_, rfl⟩⟩
  simp [parseTimes, h1, h2]

/-- C3 amended witness: two offset-carrying events. -/
theorem claim3_z_suffix_without_conversion_witness :
    parseTimes "2024-03-01T10:00:00+05:00" "2024-03-01T11:00:00+0100" =
      .ok (formatZ ⟨2024, 3, 1, 10, 0, 0, 300⟩, formatZ ⟨2024, 3, 1, 11, 0, 0, 60⟩,
           formatZ ⟨2024, 3, 1, 10, 0, 0, 300⟩) ∧
    (∀ z : Int,
      formatZ ⟨2024, 3, 1, 10, 0, 0, z⟩ = formatZ ⟨2024, 3, 1, 10, 0, 0, 300⟩) ∧
    (∃ p : String, formatZ ⟨2024, 3, 1, 10, 0, 0, 300⟩ = p ++ "Z") :=
  claim3_z_suffix_without_conversion _ _ _ _ (by decide) (by decide)

/-- A successfully read digit is below ten. -/
theorem digitVal_lt {c : Char} {d : Nat} (h : digitVal c = some d) : d < 10 := by
  unfold digitVal at h
  split at h
  · cases h; omega
  · cases h

/-- The value read by `readDigits` is bounded by the digit count. -/
theorem readDigits_lt : ∀ (n acc : Nat) (l : List Char) (v : Nat) (r : List Char),
    readDigits n acc l = some (v, r) → v < (acc + 1) * 10 ^ n := by
  intro n
  induction n with
  | zero =>
    intro acc l v r h
    cases h
    simp
  | succ n ih =>
    intro acc l v r h
    cases l with
    | nil => cases h
    | cons c l =>
      unfold readDigits at h
      cases hd : digitVal c with
      | none => rw [hd] at h; cases h
      | some d =>
        rw [hd] at h
        have hv := ih (acc * 10 + d) l v r h
        have hd10 : d < 10 := digitVal_lt hd
        have : (acc * 10 + d + 1) * 10 ^ n ≤ (acc + 1) * 10 ^ (n + 1) := by
          have : acc * 10 + d + 1 ≤ (acc + 1) * 10 := by omega
          calc (acc * 10 + d + 1) * 10 ^ n ≤ (acc + 1) * 10 * 10 ^ n :=
                Nat.mul_le_mul_right _ this
            _ = (acc + 1) * 10 ^ (n + 1) := by ring
        omega

/-- Every month has at most 31 days. -/
theorem daysInMonth_le (y m : Nat) : daysInMonth y m ≤ 31 := by
  unfold daysInMonth
  split
  · split <;> omega
  · split <;> omega

/-- Bounds delivered by a successful `parseYmd`. -/
theorem parseYmd_bounds {l : List Char} {y m d : Nat} {r : List Char}
    (h : parseYmd l = some (y, m, d, r)) :
    y ≤ 9999 ∧ 1 ≤ m ∧ m ≤ 12 ∧ 1 ≤ d ∧ d ≤ 31 := by
  unfold parseYmd at h
  simp only [Option.bind_eq_bind, Option.bind_eq_some] at h
  obtain ⟨⟨y', l1⟩, hy, ⟨l2, hc1, ⟨⟨m', l3⟩, hm, ⟨l4, hc2, ⟨⟨d', l5⟩, hd, hif⟩⟩⟩⟩⟩ := h
  rw [Option.ite_none_right_eq_some, Option.some.injEq] at hif
  obtain ⟨⟨hy1, hm1, hm2, hd1, hd2⟩, heq⟩ := hif
  cases heq
  have hylt := readDigits_lt 4 0 l y' l1 hy
  have h31 := daysInMonth_le y' m'
  have hd2' : d' ≤ daysInMonth y' m' := hd2
  norm_num at hylt
  exact ⟨by omega, hm1, hm2, hd1, by omega⟩

/-- The digit character is always an ASCII digit. -/
theorem digitChar_digit (n : Nat) : 48 ≤ (digitChar n).toNat ∧ (digitChar n).toNat ≤ 57 := by
  unfold digitChar
  split <;> decide

/-- Every character of a decimal rendering is an ASCII digit. -/
theorem natDigitsAux_digits : ∀ (fuel n : Nat) (c : Char), c ∈ natDigitsAux fuel n →
    48 ≤ c.toNat ∧ c.toNat ≤ 57 := by
  intro fuel
  induction fuel with
  | zero => intro n c h; simp [natDigitsAux] at h
  | succ f ih =>
    intro n c h
    unfold natDigitsAux at h
    split at h
    · simp only [List.mem_singleton] at h
      subst h
      exact digitChar_digit n
    · rw [List.mem_append] at h
      rcases h with h | h
      · exact ih _ _ h
      · simp only [List.mem_singleton] at h
        subst h
        exact digitChar_digit n

/-- Every character of `pad2` is an ASCII digit. -/
theorem pad2_digits (n : Nat) (c : Char) (h : c ∈ (pad2 n).data) :
    48 ≤ c.toNat ∧ c.toNat ≤ 57 := by
  unfold pad2 at h
  split at h
  · rw [String.data_append, List.mem_append] at h
    rcases h with h | h
    · have hz : ("0" : String).data = ['0'] := rfl
      rw [hz, List.mem_singleton] at h
      subst h
      decide
    · exact natDigitsAux_digits _ _ _ h
  · exact natDigitsAux_digits _ _ _ h

/-- Every character of `pad4` is an ASCII digit. -/
theorem pad4_digits (n : Nat) (c : Char) (h : c ∈ (pad4 n).data) :
    48 ≤ c.toNat ∧ c.toNat ≤ 57 := by
  unfold pad4 at h
  split at h
  case isTrue =>
    rw [String.data_append, List.mem_append] at h
    rcases h with h | h
    · have hz : ("000" : String).data = ['0', '0', '0'] := rfl
      rw [hz] at h
      rcases h with _ | ⟨_, h⟩ <;> first | decide | skip
      rcases h with _ | ⟨_, h⟩ <;> first | decide | skip
      rcases h with _ | ⟨_, h⟩ <;> first | decide | exact absurd h (List.not_mem_nil c)
    · exact natDigitsAux_digits _ _ _ h
  case isFalse =>
    split at h
    case isTrue =>
      rw [String.data_append, List.mem_append] at h
      rcases h with h | h
      · have hz : ("00" : String).data = ['0', '0'] := rfl
        rw [hz] at h
        rcases h with _ | ⟨_, h⟩ <;> first | decide | skip
        rcases h with _ | ⟨_, h⟩ <;> first | decide | exact absurd h (List.not_mem_nil c)
      · exact natDigitsAux_digits _ _ _ h
    case isFalse =>
      split at h
      case isTrue =>
        rw [String.data_append, List.mem_append] at h
        rcases h with h | h
        · have hz : ("0" : String).data = ['0'] := rfl
          rw [hz, List.mem_singleton] at h
          subst h
          decide
        · exact natDigitsAux_digits _ _ _ h
      case isFalse => exact natDigitsAux_digits _ _ _ h

/-- Every character of `formatDate` is an ASCII digit: the all-day form
has no time component, no `T`, no `Z`. -/
theorem formatDate_digits (d : PyDate) (c : Char) (h : c ∈ (formatDate d).data) :
    48 ≤ c.toNat ∧ c.toNat ≤ 57 := by
  unfold formatDate at h
  rw [String.data_append, String.data_append, List.mem_append, List.mem_append] at h
  rcases h with (h | h) | h
  · exact pad4_digits _ _ h
  · exact pad2_digits _ _ h
  · exact pad2_digits _ _ h

/-- C7: for every event whose start/end fail the datetime-with-offset
format but parse in the date-only format, the emitted DTSTART/DTEND are
the all-day date form — digits only, hence no time component and no `Z`
suffix — and DTSTAMP is that date followed by `T000000`. -/
theorem claim7_date_only_fallback (st en : String) (d1 d2 : PyDate)
    (hA1 : parseDatetimeZ st = none) (hA2 : parseDatetimeZ en = none)
    (hB1 : parseDateOnly st = some d1) (hB2 : parseDateOnly en = some d2) :
    parseTimes st en = .ok (formatDate d1, formatDate d2, formatDate d1 ++ "T000000") ∧
    (∀ c ∈ (formatDate d1).data, 48 ≤ c.toNat ∧ c.toNat ≤ 57) ∧
    (∀ c ∈ (formatDate d2).data, 48 ≤ c.toNat ∧ c.toNat ≤ 57) := by
  refine ⟨?_, fun c hc => formatDate_digits d1 c hc,
    fun c hc => formatDate_digits d2 c hc⟩
  simp [parseTimes, hA1, hA2, hB1, hB2]

/-- C7 witness: a concrete all-day event. -/
theorem claim7_date_only_fallback_witness :
    parseTimes "2024-03-01" "2024-03-02" =
      .ok (formatDate ⟨2024, 3, 1⟩, formatDate ⟨2024, 3, 2⟩,
           formatDate ⟨2024, 3, 1⟩ ++ "T000000") ∧
    (∀ c ∈ (formatDate ⟨2024, 3, 1⟩).data, 48 ≤ c.toNat ∧ c.toNat ≤ 57) ∧
    (∀ c ∈ (formatDate ⟨2024, 3, 2⟩).data, 48 ≤ c.toNat ∧ c.toNat ≤ 57) :=
  claim7_date_only_fallback _ _ _ _ (by decide) (by decide) (by decide) (by decide)

/-! ## Substring helper lemmas -/

/-- The prefix test succeeds on a syntactic prefix. -/
theorem isPrefixOf_self_append (p t : List Char) : p.isPrefixOf (p ++ t) = true := by
  induction p with
  | nil => simp [List.isPrefixOf]
  | cons c p ih => simp [List.isPrefixOf, ih]

/-- A shared left factor cancels in the prefix test. -/
theorem isPrefixOf_append_both (x u v : List Char) :
    (x ++ u).isPrefixOf (x ++ v) = u.isPrefixOf v := by
  induction x with
  | nil => simp
  | cons c x ih => simp [List.isPrefixOf, ih]

/-- Unfolding `containsSub` one character at a time. -/
theorem containsSub_cons (pat : List Char) (c : Char) (l : List Char) :
    containsSub pat (c :: l) = (pat.isPrefixOf (c :: l) || containsSub pat l) := by
  simp [containsSub, List.tails_cons]

/-- A pattern that is a prefix of the list is contained in it. -/
theorem containsSub_of_isPrefixOf (pat l : List Char) (h : pat.isPrefixOf l = true) :
    containsSub pat l = true := by
  cases l with
  | nil => simpa [containsSub] using h
  | cons c t => rw [containsSub_cons, h, Bool.true_or]

/-- A pattern that is a prefix of some suffix is contained. -/
theorem containsSub_suffix (a pat t : List Char) (h : pat.isPrefixOf t = true) :
    containsSub pat (a ++ t) = true := by
  induction a with
  | nil => exact containsSub_of_isPrefixOf pat t h
  | cons c a ih => rw [List.cons_append, containsSub_cons, ih, Bool.or_true]

/-! ## Theorems about the UID -/

set_option maxRecDepth 100000 in
/-- C2: the UID emitted for an event is the hex-encoded SHA-256 digest of
`{escaped_calendar_id}-{start}-{end}-{escaped_summary_or_sentinel}` (the
sentinel `None` standing for a missing summary); the UID depends only on
(calendar id, start, end, summary), so re-serializing the same four
inputs reproduces it; and for the `calendar.family` Dentist scenario the
UID is the sha256 hex digest of
`calendar.family-20240301T100000Z-20240301T110000Z-Dentist`, namely
`ba6f93b0f0ba853f5acdd461eb4cade347d39462183115faebd6e0b2168a5c9d`. -/
theorem claim2_uid_sha256 :
    (∀ (eidEsc : String) (colours : Option (List ColourRule)) (e : EventRecord)
        (startS endS stamp : String),
        parseTimes e.start e.stop = .ok (startS, endS, stamp) →
        ∀ cls : String, colourLines colours (eventSummaryEsc e) = .ok cls →
        ∃ blk, renderEvent eidEsc colours e = .ok blk ∧
          strContains blk ("UID:" ++
            sha256hex (uidInput eidEsc startS endS (eventSummaryEsc e)) ++ "\n") =
            true) ∧
    (∀ (eidEsc : String) (e e' : EventRecord), e.start = e'.start →
        e.stop = e'.stop → e.summary = e'.summary →
        eventUidOf eidEsc e = eventUidOf eidEsc e') ∧
    (eventUidOf "calendar.family"
        ⟨"2024-03-01T10:00:00+00:00", "2024-03-01T11:00:00+00:00", some "Dentist",
         none, none⟩ =
      .ok (sha256hex
        "calendar.family-20240301T100000Z-20240301T110000Z-Dentist")) ∧
    (sha256hex "calendar.family-20240301T100000Z-20240301T110000Z-Dentist" =
      "ba6f93b0f0ba853f5acdd461eb4cade347d39462183115faebd6e0b2168a5c9d") := by
  refine ⟨?_, ?_, by rfl, by decide⟩
  · intro eidEsc colours e startS endS stamp ht cls hcl
    cases hre : renderEvent eidEsc colours e with
    | error er => simp [renderEvent, ht, hcl] at hre
    | ok blk =>
      refine ⟨blk, rfl, ?_⟩
      simp only [renderEvent, ht, hcl, Except.ok.injEq] at hre
      subst hre
      simp only [strContains, String.data_append, List.append_assoc]
      exact containsSub_suffix _ _ _ (by
        simp [String.data_append, isPrefixOf_append_both, isPrefixOf_self_append])
  · intro eidEsc e e' h1 h2 h3
    unfold eventUidOf eventSummaryEsc
    rw [h1, h2, h3]

set_option maxRecDepth 100000 in
/-- C2 witness: the Dentist scenario event, rendered with a matching
colour rule, carries its sha256 UID line. -/
theorem claim2_uid_sha256_witness :
    ∃ blk, renderEvent "calendar.family" (some [⟨some "Dentist", some "red"⟩])
        ⟨"2024-03-01T10:00:00+00:00", "2024-03-01T11:00:00+00:00", some "Dentist",
         none, none⟩ = .ok blk ∧
      strContains blk ("UID:" ++
        sha256hex (uidInput "calendar.family" "20240301T100000Z" "20240301T110000Z"
          (eventSummaryEsc
            ⟨"2024-03-01T10:00:00+00:00", "2024-03-01T11:00:00+00:00", some "Dentist",
             none, none⟩)) ++ "\n") = true :=
  claim2_uid_sha256.1 "calendar.family" (some [⟨some "Dentist", some "red"⟩])
    ⟨"2024-03-01T10:00:00+00:00", "2024-03-01T11:00:00+00:00", some "Dentist",
     none, none⟩
    "20240301T100000Z" "20240301T110000Z" "20240301T100000Z" (by rfl)
    "COLOR:red\n" (by rfl)

/-! ## Theorems about colour rules -/

set_option maxRecDepth 100000 in
/-- C8: the COLOR lines of a VEVENT block are exactly one
`COLOR:{colour}` line per configured rule whose `name` equals the
event's escaped summary, in rule order and without deduplication; and
the Dentist event rendered with the rule `name Dentist / colour red`
contains `COLOR:red` inside its block. -/
theorem claim8_colour_rules (rules : List ColourRule) (s : String) (out : String)
    (hok : colourLinesGo rules (some s) = .ok out) :
    (out = strConcat (rules.map fun c =>
        if matchesRule c (some s) then "COLOR:" ++ c.colour.getD "" ++ "\n"
        else "")) ∧
    (renderEvent "calendar.family" (some [⟨some "Dentist", some "red"⟩])
        ⟨"2024-03-01T10:00:00+00:00", "2024-03-01T11:00:00+00:00", some "Dentist",
         none, none⟩ =
      .ok "BEGIN:VEVENT\nUID:ba6f93b0f0ba853f5acdd461eb4cade347d39462183115faebd6e0b2168a5c9d\nDTSTAMP:20240301T100000Z\nDTSTART:20240301T100000Z\nDTEND:20240301T110000Z\nSUMMARY:Dentist\nCOLOR:red\nEND:VEVENT\n" ∧
      strContains "BEGIN:VEVENT\nUID:ba6f93b0f0ba853f5acdd461eb4cade347d39462183115faebd6e0b2168a5c9d\nDTSTAMP:20240301T100000Z\nDTSTART:20240301T100000Z\nDTEND:20240301T110000Z\nSUMMARY:Dentist\nCOLOR:red\nEND:VEVENT\n"
        "COLOR:red\n" = true) := by
  refine ⟨?_, by rfl, by decide⟩
  induction rules generalizing out with
  | nil =>
    simp only [colourLinesGo, Except.ok.injEq] at hok
    subst hok
    rfl
  | cons c rest ih =>
    obtain ⟨cn, cc⟩ := c
    have hemp : ∀ x : String, "" ++ x = x := fun _ => rfl
    cases cn with
    | none =>
      replace hok : colourLinesGo rest (some s) = .ok out := hok
      have hm : matchesRule ⟨none, cc⟩ (some s) = false := rfl
      rw [List.map_cons, hm]
      have hconc := ih out hok
      simp [strConcat, hemp, ← hconc]
    | some n =>
      by_cases hns : (n == s) = true
      · cases cc with
        | none =>
          have hred : colourLinesGo (⟨some n, none⟩ :: rest) (some s) =
              Except.error PyError.keyError := by
            simp [colourLinesGo, hns]
          rw [hred] at hok
          cases hok
        | some col =>
          have hred : colourLinesGo (⟨some n, some col⟩ :: rest) (some s) =
              Except.map (fun r => "COLOR:" ++ col ++ "
" ++ r)
                (colourLinesGo rest (some s)) := by
            simp [colourLinesGo, hns]
          rw [hred] at hok
          cases hrest : colourLinesGo rest (some s) with
          | error er => rw [hrest] at hok; cases hok
          | ok r =>
            rw [hrest] at hok
            simp only [Except.map, Except.ok.injEq] at hok
            subst hok
            have hm : matchesRule ⟨some n, some col⟩ (some s) = true := by
              simp [matchesRule, hns]
            have hconc := ih r hrest
            rw [List.map_cons]
            simp [hm, strConcat, hconc]
      · have hred : colourLinesGo (⟨some n, cc⟩ :: rest) (some s) =
            colourLinesGo rest (some s) := by
          simp [colourLinesGo, hns]
        rw [hred] at hok
        have hm : matchesRule ⟨some n, cc⟩ (some s) = false := by
          simp [matchesRule]
          simpa using hns
        rw [List.map_cons, hm]
        have hconc := ih out hok
        simp [strConcat, hemp, ← hconc]

set_option maxRecDepth 100000 in
/-- C8 witness: two identical Dentist rules each emit their own
`COLOR:red` line (no deduplication). -/
theorem claim8_colour_rules_witness :
    ("COLOR:red\nCOLOR:red\n" : String) =
      strConcat (([⟨some "Dentist", some "red"⟩, ⟨some "Dentist", some "red"⟩] :
          List ColourRule).map fun c =>
        if matchesRule c (some "Dentist") then "COLOR:" ++ c.colour.getD "" ++ "\n"
        else "") ∧
    (renderEvent "calendar.family" (some [⟨some "Dentist", some "red"⟩])
        ⟨"2024-03-01T10:00:00+00:00", "2024-03-01T11:00:00+00:00", some "Dentist",
         none, none⟩ =
      .ok "BEGIN:VEVENT\nUID:ba6f93b0f0ba853f5acdd461eb4cade347d39462183115faebd6e0b2168a5c9d\nDTSTAMP:20240301T100000Z\nDTSTART:20240301T100000Z\nDTEND:20240301T110000Z\nSUMMARY:Dentist\nCOLOR:red\nEND:VEVENT\n" ∧
      strContains "BEGIN:VEVENT\nUID:ba6f93b0f0ba853f5acdd461eb4cade347d39462183115faebd6e0b2168a5c9d\nDTSTAMP:20240301T100000Z\nDTSTART:20240301T100000Z\nDTEND:20240301T110000Z\nSUMMARY:Dentist\nCOLOR:red\nEND:VEVENT\n"
        "COLOR:red\n" = true) :=
  claim8_colour_rules
    [⟨some "Dentist", some "red"⟩, ⟨some "Dentist", some "red"⟩] "Dentist"
    "COLOR:red\nCOLOR:red\n" (by rfl)

/-! ## Escaping and folding lemmas -/

/-- A character outside the five escaped ones passes through
`html.escape` unchanged. -/
theorem htmlEscapeChar_other (c : Char) (h1 : ¬ c = '&') (h2 : ¬ c = '<')
    (h3 : ¬ c = '>') (h4 : ¬ c = '"') (h5 : ¬ c = quoteChar) :
    htmlEscapeChar c = [c] := by
  simp [htmlEscapeChar, h1, h2, h3, h4, h5]

/-- `html.escape` neither creates nor destroys commas or backslashes at
a single character. -/
theorem count_htmlEscapeChar (x c : Char) (hx : x = ',' ∨ x = '\\') :
    (htmlEscapeChar c).count x = List.count x [c] := by
  by_cases h1 : c = '&'
  · subst h1; rcases hx with h | h <;> subst h <;> decide
  by_cases h2 : c = '<'
  · subst h2; rcases hx with h | h <;> subst h <;> decide
  by_cases h3 : c = '>'
  · subst h3; rcases hx with h | h <;> subst h <;> decide
  by_cases h4 : c = '"'
  · subst h4; rcases hx with h | h <;> subst h <;> decide
  by_cases h5 : c = quoteChar
  · subst h5; rcases hx with h | h <;> subst h <;> decide
  rw [htmlEscapeChar_other c h1 h2 h3 h4 h5]

/-- `html.escape` preserves the number of commas and backslashes. -/
theorem count_htmlEscapeList (x : Char) (hx : x = ',' ∨ x = '\\') :
    ∀ l : List Char, (htmlEscapeList l).count x = l.count x := by
  intro l
  induction l with
  | nil => rfl
  | cons c rest ih =>
    show (htmlEscapeChar c ++ htmlEscapeList rest).count x = _
    rw [List.count_append, count_htmlEscapeChar x c hx, ih]
    simp [List.count_cons]
    omega

/-- At one character, `html.escape` emits exactly one semicolon per
input semicolon or escaped character (each entity ends in one `;`). -/
theorem semi_count_htmlEscapeChar (c : Char) :
    (htmlEscapeChar c).count ';' =
      List.count ';' [c] + List.count '&' [c] + List.count '<' [c] +
      List.count '>' [c] + List.count '"' [c] + List.count quoteChar [c] := by
  by_cases h1 : c = '&'
  · subst h1; decide
  by_cases h2 : c = '<'
  · subst h2; decide
  by_cases h3 : c = '>'
  · subst h3; decide
  by_cases h4 : c = '"'
  · subst h4; decide
  by_cases h5 : c = quoteChar
  · subst h5; decide
  rw [htmlEscapeChar_other c h1 h2 h3 h4 h5]
  by_cases h6 : c = ';'
  · subst h6; decide
  have e1 : List.count '&' [c] = 0 := by
    simp [List.count_singleton]
    intro h
    exact h1 h
  have e2 : List.count '<' [c] = 0 := by
    simp [List.count_singleton]
    intro h
    exact h2 h
  have e3 : List.count '>' [c] = 0 := by
    simp [List.count_singleton]
    intro h
    exact h3 h
  have e4 : List.count '"' [c] = 0 := by
    simp [List.count_singleton]
    intro h
    exact h4 h
  have e5 : List.count quoteChar [c] = 0 := by
    simp [List.count_singleton]
    intro h
    exact h5 h
  rw [e1, e2, e3, e4, e5]
  omega

/-- Semicolons after `html.escape`: one per input semicolon or escaped
character. -/
theorem semi_count_htmlEscapeList : ∀ l : List Char,
    (htmlEscapeList l).count ';' =
      l.count ';' + l.count '&' + l.count '<' + l.count '>' + l.count '"' +
      l.count quoteChar := by
  intro l
  induction l with
  | nil => rfl
  | cons c rest ih =>
    show (htmlEscapeChar c ++ htmlEscapeList rest).count ';' = _
    rw [List.count_append, semi_count_htmlEscapeChar, ih]
    simp [List.count_cons]
    omega

/-- Newline folding preserves every character that is neither a newline
nor a space. -/
theorem count_replaceNl (x : Char) (hn : ¬ x = '\n') (hs : ¬ x = ' ') :
    ∀ l : List Char, (replaceNl l).count x = l.count x := by
  intro l
  induction l with
  | nil => rfl
  | cons c rest ih =>
    unfold replaceNl
    by_cases hc : c = '\n'
    · subst hc
      rw [if_pos rfl]
      have hn2 : ¬ (('\n' : Char) == x) = true := by
        simp only [beq_iff_eq]
        exact fun h => hn h.symm
      have hs2 : ¬ ((' ' : Char) == x) = true := by
        simp only [beq_iff_eq]
        exact fun h => hs h.symm
      simp [List.count_cons, ih, hn2, hs2]
    · rw [if_neg hc]
      simp [List.count_cons, ih]

/-- An empty `rstrip` result means every character was whitespace. -/
theorem pyRstrip_nil_all_space : ∀ l : List Char, pyRstrip l = [] →
    ∀ c ∈ l, isPySpace c = true := by
  intro l
  induction l with
  | nil => intro _ c hc; cases hc
  | cons c rest ih =>
    intro h d hd
    unfold pyRstrip at h
    cases hp : pyRstrip rest with
    | nil =>
      rw [hp] at h
      by_cases hc : isPySpace c
      · rcases List.mem_cons.mp hd with rfl | hd2
        · exact hc
        · exact ih hp d hd2
      · rw [if_neg hc] at h
        cases h
    | cons y ys => rw [hp] at h; cases h

/-- Trailing-whitespace stripping preserves every non-whitespace
character. -/
theorem count_pyRstrip (x : Char) (hsp : isPySpace x = false) :
    ∀ l : List Char, (pyRstrip l).count x = l.count x := by
  intro l
  induction l with
  | nil => rfl
  | cons c rest ih =>
    unfold pyRstrip
    cases hp : pyRstrip rest with
    | nil =>
      have h0 : rest.count x = 0 := by
        rw [← ih, hp]
        rfl
      by_cases hc : isPySpace c
      · rw [if_pos hc]
        have hcx : ¬ (c == x) = true := by
          simp only [beq_iff_eq]
          intro h
          rw [h] at hc
          rw [hc] at hsp
          cases hsp
        simp [List.count_cons, h0, hcx]
      · rw [if_neg hc]
        simp [List.count_cons, h0]
    | cons y ys =>
      rw [hp] at ih
      simp [List.count_cons, ih]

/-- The angle brackets never survive `html.escape` at one character. -/
theorem angle_not_mem_htmlEscapeChar (x c : Char) (hx : x = '<' ∨ x = '>') :
    x ∉ htmlEscapeChar c := by
  by_cases h1 : c = '&'
  · subst h1; rcases hx with h | h <;> subst h <;> decide
  by_cases h2 : c = '<'
  · subst h2; rcases hx with h | h <;> subst h <;> decide
  by_cases h3 : c = '>'
  · subst h3; rcases hx with h | h <;> subst h <;> decide
  by_cases h4 : c = '"'
  · subst h4; rcases hx with h | h <;> subst h <;> decide
  by_cases h5 : c = quoteChar
  · subst h5; rcases hx with h | h <;> subst h <;> decide
  rw [htmlEscapeChar_other c h1 h2 h3 h4 h5]
  rcases hx with h | h <;> subst h <;> simp only [List.mem_singleton]
  · exact fun heq => h2 heq.symm
  · exact fun heq => h3 heq.symm

/-- A non-newline head does not affect `nlOk`. -/
theorem nlOk_cons_ne (c : Char) (l : List Char) (h : ¬ c = '\n') :
    nlOk (c :: l) = nlOk l := by
  simp [nlOk, h]

/-- Unfolding `nlOk` at a newline with a successor. -/
theorem nlOk_cons_nl (d : Char) (t : List Char) :
    nlOk ('\n' :: d :: t) = ((d == ' ') && nlOk (d :: t)) := by
  rfl

/-- Newline folding leaves every newline followed by a space. -/
theorem nlOk_replaceNl : ∀ l : List Char, nlOk (replaceNl l) = true := by
  intro l
  induction l with
  | nil => rfl
  | cons c rest ih =>
    unfold replaceNl
    by_cases hc : c = '\n'
    · subst hc
      rw [if_pos rfl, nlOk_cons_nl, nlOk_cons_ne ' ' _ (by decide)]
      simp [ih]
    · rw [if_neg hc, nlOk_cons_ne c _ hc]
      exact ih

/-- Stripping trailing whitespace cannot break the folding property. -/
theorem nlOk_pyRstrip : ∀ l : List Char, nlOk l = true → nlOk (pyRstrip l) = true := by
  intro l
  induction l with
  | nil => intro h; exact h
  | cons c rest ih =>
    intro h
    by_cases hc : c = '\n'
    · subst hc
      cases rest with
      | nil => cases h
      | cons d t =>
        rw [nlOk_cons_nl, Bool.and_eq_true] at h
        obtain ⟨hd, hnt⟩ := h
        have hd2 : d = ' ' := by simpa using hd
        subst hd2
        show nlOk (pyRstrip ('\n' :: ' ' :: t)) = true
        unfold pyRstrip
        cases hp : pyRstrip (' ' :: t) with
        | nil => decide
        | cons x xs =>
          have hx : x = ' ' := by
            unfold pyRstrip at hp
            cases hpt : pyRstrip t with
            | nil => rw [hpt] at hp; simp [isPySpace] at hp
            | cons y ys =>
              rw [hpt] at hp
              exact (List.cons.injEq _ _ _ _ ▸ hp).1.symm
          subst hx
          have hrec := ih hnt
          rw [hp] at hrec
          show nlOk ('\n' :: ' ' :: xs) = true
          rw [nlOk_cons_nl]
          simp [hrec]
    · have hr : nlOk rest = true := by
        rw [nlOk_cons_ne c rest hc] at h
        exact h
      unfold pyRstrip
      cases hp : pyRstrip rest with
      | nil =>
        by_cases hsp : isPySpace c
        · simp [hsp, nlOk]
        · simp only [hsp]
          rw [if_neg (by simp [hsp])]
          rw [nlOk_cons_ne c [] hc]
          rfl
      | cons x xs =>
        have hrec := ih hr
        rw [hp] at hrec
        rw [nlOk_cons_ne c _ hc]
        exact hrec

/-- Characters introduced by newline folding are spaces; everything else
comes from the input. -/
theorem mem_replaceNl (x : Char) : ∀ l : List Char,
    x ∈ replaceNl l → x = ' ' ∨ x ∈ l := by
  intro l
  induction l with
  | nil => intro h; cases h
  | cons c rest ih =>
    intro h
    unfold replaceNl at h
    by_cases hc : c = '\n'
    · subst hc
      rw [if_pos rfl] at h
      rcases List.mem_cons.mp h with rfl | h2
      · exact Or.inr (List.mem_cons_self _ _)
      rcases List.mem_cons.mp h2 with rfl | h3
      · exact Or.inl rfl
      · rcases ih h3 with hs | hm
        · exact Or.inl hs
        · exact Or.inr (List.mem_cons_of_mem _ hm)
    · rw [if_neg hc] at h
      rcases List.mem_cons.mp h with rfl | h2
      · exact Or.inr (List.mem_cons_self _ _)
      · rcases ih h2 with hs | hm
        · exact Or.inl hs
        · exact Or.inr (List.mem_cons_of_mem _ hm)

/-- Stripping returns a subset of the characters. -/
theorem mem_pyRstrip (x : Char) : ∀ l : List Char,
    x ∈ pyRstrip l → x ∈ l := by
  intro l
  induction l with
  | nil => intro h; exact h
  | cons c rest ih =>
    intro h
    unfold pyRstrip at h
    cases hp : pyRstrip rest with
    | nil =>
      rw [hp] at h
      by_cases hsp : isPySpace c
      · rw [if_pos hsp] at h
        cases h
      · rw [if_neg hsp] at h
        rcases List.mem_cons.mp h with rfl | h2
        · exact List.mem_cons_self _ _
        · cases h2
    | cons y ys =>
      rw [hp] at h
      rcases List.mem_cons.mp h with rfl | h2
      · exact List.mem_cons_self _ _
      · exact List.mem_cons_of_mem _ (ih (hp ▸ h2))

/-- Angle brackets never occur in escaped output. -/
theorem angle_not_mem_htmlEscapeList (x : Char) (hx : x = '<' ∨ x = '>') :
    ∀ l : List Char, x ∉ htmlEscapeList l := by
  intro l
  induction l with
  | nil => intro h; cases h
  | cons c rest ih =>
    intro h
    rcases List.mem_append.mp h with h2 | h2
    · exact angle_not_mem_htmlEscapeChar x c hx h2
    · exact ih h2

/-! ## Theorems about text escaping -/

/-- C4 counterexample: the escaping-and-folding step leaves `a,b` and
`a;b` completely unchanged — the comma and the semicolon come out
unescaped (not preceded by a backslash), contradicting the claim that
comma, semicolon and backslash are escaped. -/
theorem claim4_counterexample :
    escFold "a,b" = "a,b" ∧ hasUnescaped ',' (escFold "a,b").data = true ∧
    escFold "a;b" = "a;b" ∧ hasUnescaped ';' (escFold "a;b").data = true ∧
    escFold "a\\b" = "a\\b" := by
  refine ⟨by decide, by decide, by decide, by decide, by decide⟩

/-- C4 amended: the escaping applied is `html.escape` plus newline
folding and trailing-whitespace stripping: angle brackets never survive
into the output, every embedded newline in the output is immediately
followed by a space (no bare newline inside a property value), but
commas and backslashes pass through entirely unescaped (their counts are
preserved), and semicolons are never escaped either — the output holds
one semicolon per input semicolon plus one per HTML-escaped character
(`&`, `<`, `>`, `"`, `'`), each entity ending in `;`. -/
theorem claim4_escape_fold (s : String) :
    ('<' ∉ (escFold s).data) ∧ ('>' ∉ (escFold s).data) ∧
    nlOk (escFold s).data = true ∧
    (escFold s).data.count ',' = s.data.count ',' ∧
    (escFold s).data.count '\\' = s.data.count '\\' ∧
    (escFold s).data.count ';' =
      s.data.count ';' + s.data.count '&' + s.data.count '<' +
      s.data.count '>' + s.data.count '"' + s.data.count quoteChar := by
  have hdata : (escFold s).data = pyRstrip (replaceNl (htmlEscapeList s.data)) := rfl
  rw [hdata]
  refine ⟨?_, ?_, ?_, ?_, ?_, ?_⟩
  · intro hm
    rcases mem_replaceNl '<' _ (mem_pyRstrip '<' _ hm) with h | h
    · cases h
    · exact angle_not_mem_htmlEscapeList '<' (Or.inl rfl) _ h
  · intro hm
    rcases mem_replaceNl '>' _ (mem_pyRstrip '>' _ hm) with h | h
    · cases h
    · exact angle_not_mem_htmlEscapeList '>' (Or.inr rfl) _ h
  · exact nlOk_pyRstrip _ (nlOk_replaceNl _)
  · rw [count_pyRstrip ',' (by decide) _, count_replaceNl ',' (by decide) (by decide) _,
      count_htmlEscapeList ',' (Or.inl rfl) _]
  · rw [count_pyRstrip '\\' (by decide) _,
      count_replaceNl '\\' (by decide) (by decide) _,
      count_htmlEscapeList '\\' (Or.inr rfl) _]
  · rw [count_pyRstrip ';' (by decide) _, count_replaceNl ';' (by decide) (by decide) _,
      semi_count_htmlEscapeList _]
